import Mathlib

/-!
# talentknit-website: consultation intake and career-recommendation endpoints

A shallow embedding of `dist/index.js` (the bundled server): the in-memory store
`MemStorage`, the two request schemas, `generateCareerRecommendations` and the
route handlers registered by `registerRoutes`.

Modelling conventions.

* JavaScript values are the inductive type `JsVal`.  Finite numbers are rationals
  (every finite double is one; `-0` is identified with `0`, which no modelled
  operation distinguishes), with `NaN` and the infinities as separate values.
* Strings are sequences of Unicode scalar values.
* A plain object is the list of its own properties in insertion order; the
  reordering of integer-like keys is not modelled (no modelled operation looks at
  property order).
* The store counters are natural numbers: `x++` is exact on the integers a counter
  that starts at 1 can hold below `2^53`.
* `async` functions are run to completion: a rejected promise is the `error` case of
  `Except`, with the thrown value as its payload.
* The environment is explicit: the clock read by `new Date()`, the provider call
  `openai.chat.completions.create` and the runtime's `JSON.parse` are parameters.
* The libraries zod and drizzle-zod are embedded as far as the two schemas use them.
* Console output is not modelled.
-/

namespace TalentKnit

/-! ## JavaScript values -/

/-- A JavaScript number: `NaN`, an infinity, or a finite value. -/
inductive JsNumber where
  | nan
  | inf (negative : Bool)
  | fin (q : Rat)
  deriving DecidableEq

/-- A JavaScript value, as far as the server handles them. -/
inductive JsVal where
  | undefined
  | null
  | bool (b : Bool)
  | num (n : JsNumber)
  | str (s : String)
  | date (ms : Int)
  | arr (items : List JsVal)
  | obj (props : List (String × JsVal))

/-- A plain object: its own enumerable properties, in insertion order. -/
abbrev JsObj := List (String × JsVal)

instance : Inhabited JsVal := ⟨JsVal.undefined⟩

/-- The number value of a natural number. -/
def JsVal.ofNat (n : Nat) : JsVal := .num (.fin (n : Rat))

/-- The relation `a < b` of JavaScript on two number values (false when either is `NaN`). -/
def JsNumber.lt : JsNumber → JsNumber → Prop
  | .fin a, .fin b => a < b
  | .fin _, .inf negative => negative = false
  | .inf negative, .fin _ => negative = true
  | .inf a, .inf b => a = true ∧ b = false
  | _, _ => False

/-- The relation `a < b` restricted to number values. -/
def JsVal.numLt : JsVal → JsVal → Prop
  | .num a, .num b => JsNumber.lt a b
  | _, _ => False

/-- The result of `ToBoolean`: `undefined`, `null`, `false`, `0`, `NaN` and `""` are falsy. -/
def JsVal.truthy : JsVal → Bool
  | .undefined => false
  | .null => false
  | .bool b => b
  | .num .nan => false
  | .num (.inf _) => true
  | .num (.fin q) => decide (q ≠ 0)
  | .str s => decide (s ≠ "")
  | .date _ => true
  | .arr _ => true
  | .obj _ => true

/-- The expression `a || b`. -/
def JsVal.or (a b : JsVal) : JsVal := if a.truthy then a else b

/-- The expression `v === s` for a string `s`. -/
def JsVal.strictEqStr : JsVal → String → Bool
  | .str t, s => t == s
  | _, _ => false

namespace JsObj

/-- Own-property lookup. -/
def find? : JsObj → String → Option JsVal
  | [], _ => none
  | (name, value) :: rest, k => if name = k then some value else find? rest k

/-- The expression `o[k]` (`o.k`): `undefined` when `o` has no property `k`. -/
def get (o : JsObj) (k : String) : JsVal := (find? o k).getD .undefined

/-- The expression `k in o` on a plain object with no inherited property `k`. -/
def has (o : JsObj) (k : String) : Bool := (find? o k).isSome

/-- Defining the property `k`: an existing property keeps its place and takes the new
value, a new property goes last. -/
def set : JsObj → String → JsVal → JsObj
  | [], k, v => [(k, v)]
  | (name, value) :: rest, k, v =>
      if name = k then (name, v) :: rest else (name, value) :: set rest k v

/-- The spread `{ ...target, ...src }`: each property of `src`, in order, is defined on the target. -/
def spread (target src : JsObj) : JsObj :=
  src.foldl (fun acc p => set acc p.1 p.2) target

end JsObj

/-! ## `Map` keyed by numeric id -/

/-- A JavaScript `Map` from ids to objects: its entries in insertion order. -/
abbrev JsMap := List (Nat × JsObj)

namespace JsMap

/-- The method `Map.prototype.get`; `none` stands for `undefined`. -/
def get : JsMap → Nat → Option JsObj
  | [], _ => none
  | (key, value) :: rest, k => if key = k then some value else get rest k

/-- The method `Map.prototype.has`. -/
def has (m : JsMap) (k : Nat) : Bool := (get m k).isSome

/-- The method `Map.prototype.set`: an existing key keeps its place, a new key goes last. -/
def set : JsMap → Nat → JsObj → JsMap
  | [], k, v => [(k, v)]
  | (key, value) :: rest, k, v =>
      if key = k then (key, v) :: rest else (key, value) :: set rest k v

/-- The expression `Array.from(m.values())`. -/
def values (m : JsMap) : List JsObj := m.map Prod.snd

end JsMap

/-! ## server/storage.ts -/

/-- The fields of `class MemStorage`. -/
structure MemStorage where
  users : JsMap
  consultationRequests : JsMap
  currentUserId : Nat
  currentConsultationId : Nat

namespace MemStorage

/-- The constructor: two empty maps, both counters at 1. -/
def new : MemStorage :=
  { users := [], consultationRequests := [], currentUserId := 1, currentConsultationId := 1 }

/-- The method `getUser(id)`: `this.users.get(id)`. -/
def getUser (self : MemStorage) (id : Nat) : JsVal :=
  match self.users.get id with
  | some u => .obj u
  | none => .undefined

/-- The method `getUserByUsername(username)`: the first stored user whose `username`
is strictly equal to the argument. -/
def getUserByUsername (self : MemStorage) (username : String) : JsVal :=
  match List.find? (fun user => (JsObj.get user "username").strictEqStr username) self.users.values with
  | some u => .obj u
  | none => .undefined

/-- The method `createUser(insertUser)`. -/
def createUser (self : MemStorage) (insertUser : JsObj) : MemStorage × JsObj :=
  let id := self.currentUserId
  let user := JsObj.set (JsObj.spread [] insertUser) "id" (JsVal.ofNat id)
  ({ self with currentUserId := id + 1, users := self.users.set id user }, user)

/-- The method `createConsultationRequest(request)`; `now` is the time value `new Date()` reads. -/
def createConsultationRequest (self : MemStorage) (request : JsObj) (now : Int) :
    MemStorage × JsObj :=
  let id := self.currentConsultationId
  let consultationRequest :=
    JsObj.set
      (JsObj.set
        (JsObj.set (JsObj.spread [] request) "id" (JsVal.ofNat id))
        "message" ((JsObj.get request "message").or .null))
      "createdAt" (.date now)
  ({ self with
      currentConsultationId := id + 1,
      consultationRequests := self.consultationRequests.set id consultationRequest },
    consultationRequest)

/-- The method `getConsultationRequests()`. -/
def getConsultationRequests (self : MemStorage) : List JsObj :=
  self.consultationRequests.values

end MemStorage

/-- One call of a `MemStorage` method, with its arguments (and, for
`createConsultationRequest`, the clock value read during the call). -/
inductive Op where
  | getUser (id : Nat)
  | getUserByUsername (username : String)
  | createUser (insertUser : JsObj)
  | createConsultationRequest (request : JsObj) (now : Int)
  | getConsultationRequests

/-- Running one call: the store afterwards and the value the call resolves to. -/
def Op.apply (s : MemStorage) : Op → MemStorage × JsVal
  | .getUser id => (s, s.getUser id)
  | .getUserByUsername username => (s, s.getUserByUsername username)
  | .createUser insertUser => ((s.createUser insertUser).1, .obj (s.createUser insertUser).2)
  | .createConsultationRequest request now =>
      ((s.createConsultationRequest request now).1,
        .obj (s.createConsultationRequest request now).2)
  | .getConsultationRequests => (s, .arr (s.getConsultationRequests.map JsVal.obj))

/-- Running a sequence of calls from `s`: the final store and, in call order, each call with
the value it returned. -/
def runOps (s : MemStorage) : List Op → MemStorage × List (Op × JsVal)
  | [] => (s, [])
  | op :: rest =>
      let r := op.apply s
      let t := runOps r.1 rest
      (t.1, (op, r.2) :: t.2)

/-- Whether a call is a call of `createConsultationRequest`. -/
def Op.isCreate : Op → Bool
  | .createConsultationRequest _ _ => true
  | _ => false

/-- The records returned by the `createConsultationRequest` calls of a trace, in call order. -/
def createdRecords : List (Op × JsVal) → List JsObj
  | [] => []
  | (.createConsultationRequest _ _, .obj record) :: rest => record :: createdRecords rest
  | _ :: rest => createdRecords rest

/-- The ids returned by the `createConsultationRequest` calls of a trace, in call order. -/
def issuedConsultationIds (trace : List (Op × JsVal)) : List JsVal :=
  (createdRecords trace).map (fun record => JsObj.get record "id")

/-! ## Thrown values and HTTP responses -/

/-- An entry of `ZodError.issues`, for the two issue codes the schemas can raise, with the
keys zod gives each. -/
inductive ZodIssue where
  | invalid_type (expected received : String) (path : List JsVal) (message : String)
  | too_small (minimum : Nat) (type : String) (inclusive exact : Bool) (path : List JsVal)
      (message : String)

/-- The issue as the object that is serialised in a response body. -/
def ZodIssue.toJs : ZodIssue → JsVal
  | .invalid_type expected received path message =>
      .obj
        [ ("code", .str "invalid_type"), ("expected", .str expected),
          ("received", .str received), ("path", .arr path), ("message", .str message) ]
  | .too_small minimum type inclusive exact path message =>
      .obj
        [ ("code", .str "too_small"), ("minimum", JsVal.ofNat minimum), ("type", .str type),
          ("inclusive", .bool inclusive), ("exact", .bool exact), ("message", .str message),
          ("path", .arr path) ]

/-- A value thrown inside a route handler: an instance of `z.ZodError` with its issues, or
another instance of `Error` with its message. -/
inductive Thrown where
  | zodError (issues : List ZodIssue)
  | error (message : String)

/-- A value thrown inside the `try` block of `generateCareerRecommendations`, by what its
`catch` block observes: an instance of `Error` with its `message` (a string, as on every
error the runtime or the provider client constructs), or any other value. -/
inductive Raised where
  | error (message : String)
  | value (v : JsVal)

/-- What a handler sends: the status code and the JSON body. -/
structure Response where
  status : Nat
  body : JsVal

/-- The call `res.json(body)`, with the default status 200. -/
def Response.json (body : JsVal) : Response := { status := 200, body := body }

/-- The call `res.status(code).json(body)`. -/
def Response.statusJson (code : Nat) (body : JsVal) : Response := { status := code, body := body }

/-- The property `message` of a response body. -/
def Response.message (r : Response) : JsVal :=
  match r.body with
  | .obj props => JsObj.get props "message"
  | _ => .undefined

/-! ## The fragment of zod the two schemas use -/

/-- The name zod's `getParsedType` gives to a value. -/
def getParsedType : JsVal → String
  | .undefined => "undefined"
  | .null => "null"
  | .bool _ => "boolean"
  | .num .nan => "nan"
  | .num _ => "number"
  | .str _ => "string"
  | .date _ => "date"
  | .arr _ => "array"
  | .obj _ => "object"

/-- The `length` of a string: its number of UTF-16 code units. -/
def jsLength (s : String) : Nat :=
  (s.data.map (fun c => if c.val.toNat < 65536 then 1 else 2)).sum

/-- The schemas built by `z.string()`, `z.number()`, `z.date()`, `z.array(e)`, with the optional
bound of `.min(n)`, and by `.nullable()` and `.optional()`. -/
inductive ZodType where
  | string (minLength : Option Nat)
  | number
  | date
  | array (element : ZodType) (minLength : Option Nat)
  | nullable (inner : ZodType)
  | optional (inner : ZodType)
  deriving DecidableEq

/-- The shape of a `z.object({...})` with default (strip) handling of unknown keys. -/
abbrev ZodObject := List (String × ZodType)

/-- The issue zod raises when a value has the wrong type. -/
def invalidType (expected : String) (path : List JsVal) (v : JsVal) : ZodIssue :=
  .invalid_type expected (getParsedType v) path
    (match v with
      | .undefined => "Required"
      | _ => "Expected " ++ expected ++ ", received " ++ getParsedType v)

/-- The issue zod raises when a string or an array is shorter than its `.min(n)`: `what` is
`String` or `Array`, `unit` is `character` or `element`. -/
def tooSmall (what unit : String) (n : Nat) (path : List JsVal) : ZodIssue :=
  .too_small n what.toLower true false path
    (what ++ " must contain at least " ++ toString n ++ " " ++ unit ++ "(s)")

/-- The issues each element of an array raises under `check`, the element at index `i`
checked at `path ++ [i]`. -/
def elementIssues (check : List JsVal → JsVal → List ZodIssue) (path : List JsVal) :
    Nat → List JsVal → List ZodIssue
  | _, [] => []
  | i, x :: xs => check (path ++ [JsVal.ofNat i]) x ++ elementIssues check path (i + 1) xs

/-- The issues `schema._parse` adds for the value `v` found at `path`; the value is
accepted when there are none. -/
def ZodType.issues : ZodType → List JsVal → JsVal → List ZodIssue
  | .string minLength, path, v =>
      match v with
      | .str s =>
          match minLength with
          | some n => if jsLength s < n then [tooSmall "String" "character" n path] else []
          | none => []
      | _ => [invalidType "string" path v]
  | .number, path, v =>
      match v with
      | .num .nan => [invalidType "number" path v]
      | .num _ => []
      | _ => [invalidType "number" path v]
  | .date, path, v =>
      match v with
      | .date _ => []
      | _ => [invalidType "date" path v]
  | .array element minLength, path, v =>
      match v with
      | .arr items =>
          (match minLength with
            | some n => if items.length < n then [tooSmall "Array" "element" n path] else []
            | none => [])
          ++ elementIssues (fun p x => ZodType.issues element p x) path 0 items
      | _ => [invalidType "array" path v]
  | .nullable inner, path, v =>
      match v with
      | .null => []
      | _ => ZodType.issues inner path v
  | .optional inner, path, v =>
      match v with
      | .undefined => []
      | _ => ZodType.issues inner path v

/-- The issues of every key of the shape, in shape order, each read from the input object. -/
def ZodObject.issues (shape : ZodObject) (data : JsObj) : List ZodIssue :=
  (shape.map (fun f => f.2.issues [.str f.1] (JsObj.get data f.1))).flatten

/-- The object zod returns for accepted input: the shape's keys, in shape order, that the
input has or whose value is not `undefined`; unknown keys are stripped. -/
def ZodObject.output (shape : ZodObject) (data : JsObj) : JsObj :=
  shape.filterMap (fun f =>
    match JsObj.get data f.1 with
    | .undefined => if JsObj.has data f.1 then some (f.1, .undefined) else none
    | v => some (f.1, v))

/-- The call `schema.parse(input)` on an object schema: throws a `ZodError` carrying every issue,
or returns the stripped object. -/
def ZodObject.parse (shape : ZodObject) (input : JsVal) : Except Thrown JsObj :=
  match input with
  | .obj data =>
      match ZodObject.issues shape data with
      | [] => .ok (ZodObject.output shape data)
      | issue :: more => .error (.zodError (issue :: more))
  | v => .error (.zodError [invalidType "object" [] v])

/-- The method `.omit({...})`: the shape without the named keys. -/
def ZodObject.omit (shape : ZodObject) (keys : List String) : ZodObject :=
  shape.filter (fun f => !keys.contains f.1)

/-- The method `.pick({...})`: the shape restricted to the named keys. -/
def ZodObject.pick (shape : ZodObject) (keys : List String) : ZodObject :=
  shape.filter (fun f => keys.contains f.1)

/-! ## shared/schema.ts -/

/-- The column builders the tables use. -/
inductive ColumnType where
  | serial
  | text
  | timestamp
  deriving DecidableEq

/-- A table column: its key in the table object, its builder, and the two flags
`createInsertSchema` reads. -/
structure Column where
  key : String
  dataType : ColumnType
  notNull : Bool
  hasDefault : Bool

/-- The table `users`. -/
def users : List Column :=
  [ { key := "id", dataType := .serial, notNull := true, hasDefault := true },
    { key := "username", dataType := .text, notNull := true, hasDefault := false },
    { key := "password", dataType := .text, notNull := true, hasDefault := false } ]

/-- The table `consultationRequests`. -/
def consultationRequests : List Column :=
  [ { key := "id", dataType := .serial, notNull := true, hasDefault := true },
    { key := "firstName", dataType := .text, notNull := true, hasDefault := false },
    { key := "lastName", dataType := .text, notNull := true, hasDefault := false },
    { key := "email", dataType := .text, notNull := true, hasDefault := false },
    { key := "company", dataType := .text, notNull := true, hasDefault := false },
    { key := "serviceInterest", dataType := .text, notNull := true, hasDefault := false },
    { key := "message", dataType := .text, notNull := false, hasDefault := false },
    { key := "createdAt", dataType := .timestamp, notNull := true, hasDefault := true } ]

/-- The function `createInsertSchema` of drizzle-zod: each column becomes the schema of its
data type, `.nullable().optional()` when the column may be null, `.optional()` when it has
a default. -/
def createInsertSchema (table : List Column) : ZodObject :=
  table.map (fun c =>
    let base : ZodType :=
      match c.dataType with
      | .serial => .number
      | .text => .string none
      | .timestamp => .date
    (c.key,
      if !c.notNull then .optional (.nullable base)
      else if c.hasDefault then .optional base
      else base))

/-- The schema `insertUserSchema`. -/
def insertUserSchema : ZodObject := (createInsertSchema users).pick ["username", "password"]

/-- The schema `insertConsultationRequestSchema`. -/
def insertConsultationRequestSchema : ZodObject :=
  (createInsertSchema consultationRequests).omit ["id", "createdAt"]

/-! ## server/openai.ts -/

/-- The validated assessment, as typed by the schema of the career route. -/
structure AssessmentData where
  currentRole : String
  experience : String
  industry : String
  skills : List String
  interests : List String
  careerGoals : String
  timeframe : String
  location : String
  workStyle : String

/-- The argument of `openai.chat.completions.create`. -/
structure ChatRequest where
  model : String
  messages : List (String × String)
  responseFormat : String
  temperature : Rat
  maxTokens : Nat

/-- A chat completion, by what the generator reads of it: for each choice, its
`message.content` (`none` for `null`). -/
structure ChatCompletion where
  choices : List (Option String)

/-- The method `Array.prototype.join` on strings. -/
def join (sep : String) (xs : List String) : String := sep.intercalate xs

/-- The template literal `prompt`. -/
def renderPrompt (assessmentData : AssessmentData) : String :=
  "\n".intercalate
    [ "You are a senior talent acquisition expert with 10+ years of experience in the startup and tech industry. Analyze the following career assessment and provide 3-4 personalized career path recommendations.",
      "",
      "Assessment Data:",
      "- Current Role: " ++ assessmentData.currentRole,
      "- Experience Level: " ++ assessmentData.experience,
      "- Industry: " ++ assessmentData.industry,
      "- Skills: " ++ join ", " assessmentData.skills,
      "- Interests: " ++ join ", " assessmentData.interests,
      "- Career Goals: " ++ assessmentData.careerGoals,
      "- Desired Timeframe: " ++ assessmentData.timeframe,
      "- Location: " ++ assessmentData.location,
      "- Work Style: " ++ assessmentData.workStyle,
      "",
      "Provide recommendations in JSON format with this exact structure:",
      "\x7b",
      "  \"recommendations\": [",
      "    \x7b",
      "      \"title\": \"Specific Job Title\",",
      "      \"description\": \"2-3 sentence description of the role and why it fits\",",
      "      \"skillsNeeded\": [\"skill1\", \"skill2\", \"skill3\"],",
      "      \"timeToTransition\": \"realistic timeframe (e.g., '6-12 months', '1-2 years')\",",
      "      \"salaryRange\": \"realistic range for their location (e.g., '₹15-25 LPA', '$80-120k')\",",
      "      \"growthPotential\": \"brief description of career growth prospects\",",
      "      \"nextSteps\": [\"specific action 1\", \"specific action 2\", \"specific action 3\"],",
      "      \"reasoning\": \"2-3 sentences explaining why this path aligns with their profile\"",
      "    \x7d",
      "  ]",
      "\x7d",
      "",
      "Focus on:",
      "- Realistic career transitions based on their current background",
      "- Actionable next steps they can take immediately",
      "- Honest assessment of time and effort required",
      "- Consider the startup/tech ecosystem in their location",
      "- Provide diverse options (not all the same type of role)" ]

/-- The request the generator sends to the provider. -/
def chatRequest (assessmentData : AssessmentData) : ChatRequest :=
  { model := "gpt-4o"
    messages :=
      [ ("system", "You are an expert career advisor and talent acquisition specialist. Provide practical, actionable career guidance based on real market insights."),
        ("user", renderPrompt assessmentData) ]
    responseFormat := "json_object"
    temperature := 7 / 10
    maxTokens := 2000 }

/-- The method `String.prototype.includes` on lists of characters. -/
def includesChars : List Char → List Char → Bool
  | [], needle => needle.isEmpty
  | c :: cs, needle => (needle.isPrefixOf (c :: cs)) || includesChars cs needle

/-- The method `String.prototype.includes`. -/
def includes (s needle : String) : Bool := includesChars s.data needle.data

/-- Reading the property `k` of a value, for a name `k` no built-in prototype defines:
a `TypeError` (given by its V8 message) on `undefined` and `null`, the own property of an
object, `undefined` on every other value. -/
def readProp (v : JsVal) (k : String) : Except Raised JsVal :=
  match v with
  | .undefined => .error (.error ("Cannot read properties of undefined (reading '" ++ k ++ "')"))
  | .null => .error (.error ("Cannot read properties of null (reading '" ++ k ++ "')"))
  | .obj props => .ok (JsObj.get props k)
  | _ => .ok .undefined

/-- The text handed to `JSON.parse`: `content || '{"recommendations": []}'`. -/
def contentOrDefault (content : Option String) : String :=
  match content with
  | some text => if text ≠ "" then text else "\x7b\"recommendations\": []\x7d"
  | none => "\x7b\"recommendations\": []\x7d"

/-- The `try` block of `generateCareerRecommendations`.  `openai` is the provider call and
`jsonParse` the runtime's `JSON.parse`, each failing with the value it throws. -/
def generateBody (openai : ChatRequest → Except Raised ChatCompletion)
    (jsonParse : String → Except Raised JsVal) (assessmentData : AssessmentData) :
    Except Raised JsVal :=
  match openai (chatRequest assessmentData) with
  | .error e => .error e
  | .ok response =>
      match response.choices with
      | [] => .error (.error "Cannot read properties of undefined (reading 'message')")
      | content :: _ =>
          match jsonParse (contentOrDefault content) with
          | .error e => .error e
          | .ok result =>
              match readProp result "recommendations" with
              | .error e => .error e
              | .ok recommendations => .ok (recommendations.or (.arr []))

/-- The message of the error thrown for a quota failure. -/
def quotaMessage : String :=
  "OpenAI API quota exceeded. Please check your OpenAI billing and usage limits."

/-- The message of the error thrown for every other failure. -/
def genericMessage : String :=
  "Failed to generate career recommendations. Please try again."

/-- The test of the `catch` block: an instance of `Error` whose message includes
`"quota"` or `"429"`. -/
def isQuotaFailure : Raised → Bool
  | .error message => includes message "quota" || includes message "429"
  | .value _ => false

/-- The `catch` block of `generateCareerRecommendations`: the error it throws. -/
def generateCatch (error : Raised) : Thrown :=
  if isQuotaFailure error then .error quotaMessage else .error genericMessage

/-- The function `generateCareerRecommendations`. -/
def generateCareerRecommendations (openai : ChatRequest → Except Raised ChatCompletion)
    (jsonParse : String → Except Raised JsVal) (assessmentData : AssessmentData) :
    Except Thrown JsVal :=
  match generateBody openai jsonParse assessmentData with
  | .ok recommendations => .ok recommendations
  | .error e => .error (generateCatch e)

/-! ## server/routes.ts -/

/-- The value `error.errors` as sent in a body: one object per issue. -/
def issuesJson (issues : List ZodIssue) : JsVal :=
  .arr (issues.map ZodIssue.toJs)

/-- The handler of `POST /api/consultation`: the store afterwards and the response. -/
def postConsultation (storage : MemStorage) (body : JsVal) (now : Int) :
    MemStorage × Response :=
  match insertConsultationRequestSchema.parse body with
  | .ok validatedData =>
      let created := storage.createConsultationRequest validatedData now
      (created.1,
        Response.json (.obj
          [ ("message", .str "Consultation request submitted successfully"),
            ("id", JsObj.get created.2 "id") ]))
  | .error (.zodError issues) =>
      (storage,
        Response.statusJson 400 (.obj
          [("message", .str "Validation error"), ("errors", issuesJson issues)]))
  | .error (.error _) =>
      (storage, Response.statusJson 500 (.obj [("message", .str "Internal server error")]))

/-- The handler of `GET /api/consultation`. -/
def getConsultation (storage : MemStorage) : Response :=
  Response.json (.arr (storage.getConsultationRequests.map JsVal.obj))

/-- The schema `assessmentSchema`. -/
def assessmentSchema : ZodObject :=
  [ ("currentRole", .string (some 1)),
    ("experience", .string (some 1)),
    ("industry", .string (some 1)),
    ("skills", .array (.string none) (some 1)),
    ("interests", .array (.string none) (some 1)),
    ("careerGoals", .string (some 1)),
    ("timeframe", .string (some 1)),
    ("location", .string (some 1)),
    ("workStyle", .string (some 1)) ]

/-- A value the schema typed as a string. -/
def JsVal.asString : JsVal → String
  | .str s => s
  | _ => ""

/-- A value the schema typed as an array of strings. -/
def JsVal.asStrings : JsVal → List String
  | .arr items => items.map JsVal.asString
  | _ => []

/-- The typed view of an object `assessmentSchema` accepted. -/
def AssessmentData.ofValidated (o : JsObj) : AssessmentData :=
  { currentRole := (JsObj.get o "currentRole").asString
    experience := (JsObj.get o "experience").asString
    industry := (JsObj.get o "industry").asString
    skills := (JsObj.get o "skills").asStrings
    interests := (JsObj.get o "interests").asStrings
    careerGoals := (JsObj.get o "careerGoals").asString
    timeframe := (JsObj.get o "timeframe").asString
    location := (JsObj.get o "location").asString
    workStyle := (JsObj.get o "workStyle").asString }

/-- One run of the career handler: the response, and the arguments of every call it made
to `generateCareerRecommendations`. -/
structure CareerRun where
  response : Response
  generatorCalls : List AssessmentData

/-- The handler of `POST /api/career-recommendations`. -/
def postCareerRecommendations (openai : ChatRequest → Except Raised ChatCompletion)
    (jsonParse : String → Except Raised JsVal) (body : JsVal) : CareerRun :=
  match assessmentSchema.parse body with
  | .ok validatedData =>
      let assessmentData := AssessmentData.ofValidated validatedData
      { generatorCalls := [assessmentData]
        response :=
          match generateCareerRecommendations openai jsonParse assessmentData with
          | .ok recommendations => Response.json (.obj [("recommendations", recommendations)])
          | .error (.zodError issues) =>
              Response.statusJson 400 (.obj
                [("message", .str "Validation error"), ("errors", issuesJson issues)])
          | .error (.error _) =>
              Response.statusJson 500 (.obj
                [("message", .str "Failed to generate recommendations. Please try again.")]) }
  | .error (.zodError issues) =>
      { generatorCalls := []
        response :=
          Response.statusJson 400 (.obj
            [("message", .str "Validation error"), ("errors", issuesJson issues)]) }
  | .error (.error _) =>
      { generatorCalls := []
        response :=
          Response.statusJson 500 (.obj
            [("message", .str "Failed to generate recommendations. Please try again.")]) }

/-! ## Sample requests -/

/-- The consultation payload of the intake scenario. -/
def payloadAB : JsObj :=
  [ ("firstName", .str "A"), ("lastName", .str "B"), ("email", .str "a@b.com"),
    ("company", .str "C"), ("serviceInterest", .str "X") ]

/-- The scenario payload with an empty message. -/
def payloadEmptyMessage : JsObj := payloadAB ++ [("message", .str "")]

/-- A sequence of store calls: the scenario payload is submitted twice, with a user
created and the requests listed in between. -/
def sampleCalls : List Op :=
  [ .createConsultationRequest payloadAB 10,
    .createUser [("username", .str "u"), ("password", .str "p")],
    .getConsultationRequests,
    .createConsultationRequest payloadAB 20 ]

/-- Every stored consultation id lies below the counter. -/
def StoreInv (s : MemStorage) : Prop :=
  ∀ e ∈ s.consultationRequests, e.1 < s.currentConsultationId

/-- The scenario payload without its `email`. -/
def payloadNoEmail : JsObj :=
  [ ("firstName", .str "A"), ("lastName", .str "B"), ("company", .str "C"),
    ("serviceInterest", .str "X") ]

/-- An assessment payload the schema accepts. -/
def assessmentSample : JsObj :=
  [ ("currentRole", .str "Recruiter"), ("experience", .str "3 years"),
    ("industry", .str "Staffing"), ("skills", .arr [.str "sourcing"]),
    ("interests", .arr [.str "analytics"]), ("careerGoals", .str "Lead a team"),
    ("timeframe", .str "1 year"), ("location", .str "Pune"), ("workStyle", .str "Remote") ]

/-- A provider whose completion has the single choice with the given `message.content`. -/
def providerReturning (content : Option String) : ChatRequest → Except Raised ChatCompletion :=
  fun _ => .ok { choices := [content] }

/-- A provider whose call rejects with an `Error` of the given message. -/
def providerFailing (message : String) : ChatRequest → Except Raised ChatCompletion :=
  fun _ => .error (.error message)

/-- The runtime's `JSON.parse` on the two texts the examples hand to it: the default
literal, and `not json`, on which it throws a `SyntaxError` (given by its V8 message). -/
def jsonParseSample (text : String) : Except Raised JsVal :=
  if text = "\x7b\"recommendations\": []\x7d" then .ok (.obj [("recommendations", .arr [])])
  else .error (.error "Unexpected token 'o', \"not json\" is not valid JSON")

/-! # Theorems -/

/-! ## Objects, maps and the store -/

theorem JsObj.find?_set (o : JsObj) (k k' : String) (v : JsVal) :
    JsObj.find? (JsObj.set o k v) k' = if k = k' then some v else JsObj.find? o k' := by
  induction o with
  | nil => simp [JsObj.set, JsObj.find?]
  | cons p o ih =>
    obtain ⟨name, value⟩ := p
    by_cases hn : name = k
    · subst hn
      by_cases hk : name = k' <;> simp [JsObj.set, JsObj.find?, hk]
    · by_cases hk : k = k'
      · subst hk; simp [JsObj.set, JsObj.find?, hn, ih]
      · have hk2 : ¬ k' = k := fun h => hk h.symm
        by_cases hq : name = k' <;> simp [JsObj.set, JsObj.find?, hn, hk, hk2, hq, ih]

theorem JsObj.get_set_self (o : JsObj) (k : String) (v : JsVal) :
    JsObj.get (JsObj.set o k v) k = v := by
  simp [JsObj.get, JsObj.find?_set]

theorem JsObj.get_set_ne (o : JsObj) (k k' : String) (v : JsVal) (h : k ≠ k') :
    JsObj.get (JsObj.set o k v) k' = JsObj.get o k' := by
  simp [JsObj.get, JsObj.find?_set, h]

theorem JsMap.set_fresh (m : JsMap) (k : Nat) (v : JsObj) (h : ∀ e ∈ m, e.1 < k) :
    JsMap.set m k v = m ++ [(k, v)] := by
  induction m with
  | nil => rfl
  | cons e m ih =>
    obtain ⟨key, value⟩ := e
    have hk : key ≠ k := Nat.ne_of_lt (h (key, value) (List.mem_cons_self _ _))
    have hm : ∀ e ∈ m, e.1 < k := fun e he => h e (List.mem_cons_of_mem _ he)
    simp [JsMap.set, hk, ih hm]

theorem storeInv_new : StoreInv MemStorage.new := by
  intro e he; cases he

theorem create_listing (s : MemStorage) (h : StoreInv s) (request : JsObj) (now : Int) :
    (s.createConsultationRequest request now).1.getConsultationRequests =
      s.getConsultationRequests ++ [(s.createConsultationRequest request now).2] := by
  simp [MemStorage.createConsultationRequest, MemStorage.getConsultationRequests, JsMap.values,
    JsMap.set_fresh _ _ _ h]

theorem create_id (s : MemStorage) (request : JsObj) (now : Int) :
    JsObj.get (s.createConsultationRequest request now).2 "id" =
      JsVal.ofNat s.currentConsultationId := by
  simp only [MemStorage.createConsultationRequest]
  rw [JsObj.get_set_ne _ _ _ _ (by decide), JsObj.get_set_ne _ _ _ _ (by decide),
    JsObj.get_set_self]

theorem storeInv_apply (s : MemStorage) (h : StoreInv s) (op : Op) : StoreInv (op.apply s).1 := by
  cases op with
  | createConsultationRequest request now =>
    intro e he
    simp only [Op.apply, MemStorage.createConsultationRequest] at he ⊢
    rw [JsMap.set_fresh _ _ _ h] at he
    rcases List.mem_append.mp he with he | he
    · exact Nat.lt_succ_of_lt (h e he)
    · simp at he; subst he; exact Nat.lt_succ_self _
  | createUser insertUser => exact h
  | getUser id => exact h
  | getUserByUsername username => exact h
  | getConsultationRequests => exact h

theorem runOps_created (ops : List Op) : ∀ s : MemStorage, StoreInv s →
    StoreInv (runOps s ops).1 ∧
    (runOps s ops).1.getConsultationRequests =
      s.getConsultationRequests ++ createdRecords (runOps s ops).2 ∧
    issuedConsultationIds (runOps s ops).2 =
      (List.range' s.currentConsultationId (createdRecords (runOps s ops).2).length).map
        JsVal.ofNat := by
  induction ops with
  | nil => intro s h; simp [runOps, createdRecords, issuedConsultationIds, h]
  | cons op ops ih =>
    intro s h
    have h1 := storeInv_apply s h op
    obtain ⟨i1, i2, i3⟩ := ih (op.apply s).1 h1
    refine ⟨by simpa [runOps] using i1, ?_, ?_⟩
    · cases op with
      | createConsultationRequest request now =>
        simp only [runOps, Op.apply, createdRecords] at i2 ⊢
        rw [i2, create_listing s h]; simp
      | createUser insertUser => simpa [runOps, Op.apply, createdRecords] using i2
      | getUser id => simpa [runOps, Op.apply, createdRecords] using i2
      | getUserByUsername username => simpa [runOps, Op.apply, createdRecords] using i2
      | getConsultationRequests => simpa [runOps, Op.apply, createdRecords] using i2
    · cases op with
      | createConsultationRequest request now =>
        simp only [issuedConsultationIds, runOps, Op.apply, createdRecords, List.map_cons,
          List.length_cons] at i3 ⊢
        rw [i3, create_id, List.range'_succ]
        simp [MemStorage.createConsultationRequest]
      | createUser insertUser =>
        simpa [issuedConsultationIds, runOps, Op.apply, createdRecords] using i3
      | getUser id => simpa [issuedConsultationIds, runOps, Op.apply, createdRecords] using i3
      | getUserByUsername username =>
        simpa [issuedConsultationIds, runOps, Op.apply, createdRecords] using i3
      | getConsultationRequests =>
        simpa [issuedConsultationIds, runOps, Op.apply, createdRecords] using i3

theorem numLt_ofNat (a b : Nat) : JsVal.numLt (JsVal.ofNat a) (JsVal.ofNat b) ↔ a < b := by
  simp [JsVal.numLt, JsVal.ofNat, JsNumber.lt]

theorem pairwise_numLt_range (a n : Nat) :
    List.Pairwise JsVal.numLt ((List.range' a n).map JsVal.ofNat) := by
  rw [List.pairwise_map]
  have h : List.Pairwise (· < ·) (List.range' a n) := List.pairwise_lt_range' a n
  exact h.imp (fun {x y} hxy => (numLt_ofNat x y).mpr hxy)

theorem createdRecords_length (ops : List Op) : ∀ s : MemStorage,
    (createdRecords (runOps s ops).2).length = (ops.filter Op.isCreate).length := by
  induction ops with
  | nil => intro s; rfl
  | cons op ops ih =>
    intro s
    have h := ih (op.apply s).1
    cases op <;> simpa [runOps, Op.apply, createdRecords, Op.isCreate] using h

theorem apply_counter (s : MemStorage) (op : Op) :
    (op.apply s).1.currentConsultationId =
      s.currentConsultationId + ([op].filter Op.isCreate).length := by
  cases op <;> simp [Op.apply, Op.isCreate, MemStorage.createConsultationRequest,
    MemStorage.createUser]

theorem runOps_call (ops : List Op) : ∀ (s : MemStorage) (i : Nat) (request : JsObj) (now : Int),
    ops[i]? = some (.createConsultationRequest request now) →
    ∃ record,
      (runOps s ops).2[i]? = some (.createConsultationRequest request now, .obj record) ∧
      JsObj.get record "id" =
        JsVal.ofNat (s.currentConsultationId + ((ops.take i).filter Op.isCreate).length) := by
  induction ops with
  | nil => intro s i request now h; simp at h
  | cons op ops ih =>
    intro s i request now h
    cases i with
    | zero =>
      simp only [List.getElem?_cons_zero, Option.some.injEq] at h
      subst h
      exact ⟨(s.createConsultationRequest request now).2, by simp [runOps, Op.apply],
        by simpa using create_id s request now⟩
    | succ i =>
      simp only [List.getElem?_cons_succ] at h
      obtain ⟨record, h1, h2⟩ := ih (op.apply s).1 i request now h
      refine ⟨record, by simpa [runOps] using h1, ?_⟩
      rw [h2, apply_counter]
      congr 1
      cases hc : op.isCreate
      · simp [List.filter_cons, hc]
      · simp [List.filter_cons, hc]
        omega

/-- C1: from a fresh store, in any sequence of method calls, every call of
createConsultationRequest returns a record, and the id of that record is one more than the
number of createConsultationRequest calls made before it: the first call returns 1, the
second returns 2, and each call returns an id strictly greater than every earlier one. The
ids returned, in call order, are one per call, 1, 2, 3, ... and pairwise strictly
increasing. -/
theorem consultation_ids_strictly_increasing (ops : List Op) :
    (∀ (i : Nat) (request : JsObj) (now : Int),
      ops[i]? = some (.createConsultationRequest request now) →
      ∃ record,
        (runOps MemStorage.new ops).2[i]? =
          some (.createConsultationRequest request now, .obj record) ∧
        JsObj.get record "id" =
          JsVal.ofNat (((ops.take i).filter Op.isCreate).length + 1)) ∧
    (issuedConsultationIds (runOps MemStorage.new ops).2).length =
      (ops.filter Op.isCreate).length ∧
    issuedConsultationIds (runOps MemStorage.new ops).2 =
      (List.range' 1 (ops.filter Op.isCreate).length).map JsVal.ofNat ∧
    List.Pairwise JsVal.numLt (issuedConsultationIds (runOps MemStorage.new ops).2) ∧
    issuedConsultationIds (runOps MemStorage.new ops).2 =
      (List.range' 1 (issuedConsultationIds (runOps MemStorage.new ops).2).length).map
        JsVal.ofNat ∧
    (issuedConsultationIds (runOps MemStorage.new ops).2).take 2 =
      List.take (issuedConsultationIds (runOps MemStorage.new ops).2).length
        [JsVal.ofNat 1, JsVal.ofNat 2] := by
  obtain ⟨_, _, h⟩ := runOps_created ops MemStorage.new storeInv_new
  have hcount := createdRecords_length ops MemStorage.new
  have hlen : (issuedConsultationIds (runOps MemStorage.new ops).2).length =
      (createdRecords (runOps MemStorage.new ops).2).length := by
    simp [issuedConsultationIds]
  have h2 : issuedConsultationIds (runOps MemStorage.new ops).2 =
      (List.range' 1 (issuedConsultationIds (runOps MemStorage.new ops).2).length).map
        JsVal.ofNat := by
    rw [hlen]; exact h
  refine ⟨?_, hlen.trans hcount, ?_, ?_, h2, ?_⟩
  · intro i request now hi
    obtain ⟨record, h1, h2⟩ := runOps_call ops MemStorage.new i request now hi
    refine ⟨record, h1, ?_⟩
    rw [h2]
    congr 1
    simp only [MemStorage.new]
    omega
  · rw [← hcount]; exact h
  · rw [h2]; exact pairwise_numLt_range _ _
  · generalize (issuedConsultationIds (runOps MemStorage.new ops).2) = ids at h2 ⊢
    rw [h2]
    generalize ids.length = n
    match n with
    | 0 => simp
    | 1 => simp [List.range']
    | n + 2 => simp [List.range', List.take]

/-- C1 (instance): the scenario payload submitted twice, with other calls in between: the
two create calls return the ids 1 and 2. -/
theorem consultation_ids_scenario :
    issuedConsultationIds (runOps MemStorage.new sampleCalls).2 =
      [JsVal.ofNat 1, JsVal.ofNat 2] ∧
    (∃ record,
      (runOps MemStorage.new sampleCalls).2[3]? =
        some (.createConsultationRequest payloadAB 20, .obj record) ∧
      JsObj.get record "id" = JsVal.ofNat 2) :=
  ⟨(consultation_ids_strictly_increasing sampleCalls).2.2.1,
    (consultation_ids_strictly_increasing sampleCalls).1 3 payloadAB 20 rfl⟩

/-- C2: after any sequence of method calls from a fresh store, createConsultationRequest
makes getConsultationRequests return the previous listing with the new record appended at
the end, and the listing is exactly the records the earlier create calls returned, in call
order. -/
theorem listing_appends_new_record (ops : List Op) (P : JsObj) (now : Int) :
    ((runOps MemStorage.new ops).1.createConsultationRequest P now).1.getConsultationRequests =
      (runOps MemStorage.new ops).1.getConsultationRequests ++
        [((runOps MemStorage.new ops).1.createConsultationRequest P now).2] ∧
    (runOps MemStorage.new ops).1.getConsultationRequests =
      createdRecords (runOps MemStorage.new ops).2 := by
  obtain ⟨hinv, hl, _⟩ := runOps_created ops MemStorage.new storeInv_new
  refine ⟨create_listing _ hinv P now, ?_⟩
  rw [hl]; rfl

/-! ## Validation -/

theorem insertConsultationRequestSchema_eq :
    insertConsultationRequestSchema =
      [ ("firstName", .string none), ("lastName", .string none), ("email", .string none),
        ("company", .string none), ("serviceInterest", .string none),
        ("message", .optional (.nullable (.string none))) ] := by
  decide

theorem ZodObject.issues_eq_nil_iff (shape : ZodObject) (data : JsObj) :
    ZodObject.issues shape data = [] ↔
      ∀ f ∈ shape, f.2.issues [.str f.1] (JsObj.get data f.1) = [] := by
  simp only [ZodObject.issues, List.flatten_eq_nil_iff, List.mem_map]
  constructor
  · intro h f hf; exact h _ ⟨f, hf, rfl⟩
  · rintro h l ⟨f, hf, rfl⟩; exact h f hf

theorem ZodObject.parse_eq_ok_iff (shape : ZodObject) (body : JsVal) (P : JsObj) :
    ZodObject.parse shape body = .ok P ↔
      ∃ data, body = .obj data ∧ ZodObject.issues shape data = [] ∧
        P = ZodObject.output shape data := by
  cases body with
  | obj data =>
    cases h : ZodObject.issues shape data with
    | nil =>
      simp only [ZodObject.parse, h]
      constructor
      · intro hp; injection hp with hp; exact ⟨data, rfl, h, hp.symm⟩
      · rintro ⟨d, hd, -, hP⟩; injection hd with hd; subst hd; rw [hP]
    | cons i more =>
      simp only [ZodObject.parse, h]
      constructor
      · intro hp; cases hp
      · rintro ⟨d, hd, hi, -⟩; injection hd with hd; subst hd; rw [h] at hi; cases hi
  | _ => simp [ZodObject.parse]

theorem jsLength_lt_one (s : String) : jsLength s < 1 ↔ s = "" := by
  obtain ⟨cs⟩ := s
  cases cs with
  | nil => simp [jsLength]
  | cons c cs =>
    have : ("" : String) = ⟨[]⟩ := rfl
    simp only [jsLength, List.map_cons, List.sum_cons, this]
    constructor
    · intro h; split at h <;> omega
    · intro h; injection h with h; cases h

theorem jsLength_eq_zero (s : String) : jsLength s = 0 ↔ s = "" := by
  rw [← jsLength_lt_one]; omega

theorem issues_string_none (path : List JsVal) (v : JsVal) :
    (ZodType.string none).issues path v = [] ↔ ∃ s, v = .str s := by
  cases v <;> simp [ZodType.issues]

theorem issues_string_min_one (path : List JsVal) (v : JsVal) :
    (ZodType.string (some 1)).issues path v = [] ↔ ∃ s, v = .str s ∧ s ≠ "" := by
  cases v <;> simp [ZodType.issues, jsLength_eq_zero]

theorem issues_optional_nullable_string (path : List JsVal) (v : JsVal) :
    (ZodType.optional (.nullable (.string none))).issues path v = [] ↔
      v = .undefined ∨ v = .null ∨ ∃ s, v = .str s := by
  cases v <;> simp [ZodType.issues]

theorem elementIssues_string_none (path : List JsVal) (items : List JsVal) :
    ∀ i, elementIssues (fun p x => (ZodType.string none).issues p x) path i items = [] ↔
      ∀ x ∈ items, ∃ s, x = .str s := by
  induction items with
  | nil => intro i; simp [elementIssues]
  | cons x xs ih => intro i; simp [elementIssues, ih (i + 1), issues_string_none]

theorem issues_array_string_min_one (path : List JsVal) (v : JsVal) :
    (ZodType.array (.string none) (some 1)).issues path v = [] ↔
      ∃ items, v = .arr items ∧ items ≠ [] ∧ ∀ x ∈ items, ∃ s, x = .str s := by
  cases v with
  | arr items =>
    rw [ZodType.issues]
    simp only [List.append_eq_nil, elementIssues_string_none]
    cases items <;> simp
  | _ => simp [ZodType.issues]

theorem ZodObject.output_eq (shape : ZodObject) (data : JsObj) :
    ZodObject.output shape data =
      shape.filterMap (fun f => (JsObj.find? data f.1).map (fun v => (f.1, v))) := by
  unfold ZodObject.output
  congr 1
  funext f
  cases h : JsObj.find? data f.1 with
  | none => simp [JsObj.get, JsObj.has, h]
  | some v => cases v <;> simp [JsObj.get, JsObj.has, h]

theorem ZodObject.find?_output (shape : ZodObject) (data : JsObj) (k : String) :
    JsObj.find? (ZodObject.output shape data) k =
      if k ∈ shape.map Prod.fst then JsObj.find? data k else none := by
  rw [ZodObject.output_eq]
  induction shape with
  | nil => simp [JsObj.find?]
  | cons f shape ih =>
    obtain ⟨name, t⟩ := f
    by_cases hn : name = k
    · subst hn
      cases hf : JsObj.find? data name with
      | none => simp [List.filterMap_cons, hf, ih]
      | some v => simp [List.filterMap_cons, hf, JsObj.find?]
    · have hn2 : ¬ k = name := fun h => hn h.symm
      have hmem : (k ∈ List.map Prod.fst ((name, t) :: shape)) ↔ k ∈ List.map Prod.fst shape := by
        simp [hn2]
      rw [if_congr hmem rfl rfl, ← ih]
      cases hf : JsObj.find? data name with
      | none => simp [List.filterMap_cons, hf]
      | some v => simp [List.filterMap_cons, hf, JsObj.find?, hn]

theorem ZodObject.get_output (shape : ZodObject) (data : JsObj) (k : String) :
    JsObj.get (ZodObject.output shape data) k =
      if k ∈ shape.map Prod.fst then JsObj.get data k else .undefined := by
  unfold JsObj.get
  rw [ZodObject.find?_output]
  split <;> rfl

theorem JsObj.find?_eq_none (o : JsObj) (k : String) (h : k ∉ o.map Prod.fst) :
    JsObj.find? o k = none := by
  induction o with
  | nil => rfl
  | cons p o ih =>
    obtain ⟨name, value⟩ := p
    simp only [List.map_cons, List.mem_cons, not_or] at h
    have hn : ¬ name = k := fun e => h.1 e.symm
    simp [JsObj.find?, hn, ih h.2]

theorem JsObj.find?_spread (src : JsObj) (hsrc : (src.map Prod.fst).Nodup) :
    ∀ (target : JsObj) (k : String),
      JsObj.find? (JsObj.spread target src) k =
        match JsObj.find? src k with
        | some v => some v
        | none => JsObj.find? target k := by
  induction src with
  | nil => intro target k; rfl
  | cons p src ih =>
    intro target k
    obtain ⟨name, value⟩ := p
    simp only [List.map_cons, List.nodup_cons] at hsrc
    have h := ih hsrc.2 (JsObj.set target name value) k
    simp only [JsObj.spread, List.foldl_cons] at h ⊢
    rw [h, JsObj.find?_set]
    by_cases hn : name = k
    · subst hn
      rw [JsObj.find?_eq_none src name hsrc.1]
      simp [JsObj.find?]
    · simp [JsObj.find?, hn]

theorem JsObj.get_spread_nil (src : JsObj) (hsrc : (src.map Prod.fst).Nodup) (k : String) :
    JsObj.get (JsObj.spread [] src) k = JsObj.get src k := by
  unfold JsObj.get
  rw [JsObj.find?_spread src hsrc]
  cases JsObj.find? src k <;> rfl

theorem ZodObject.output_keys_nodup (shape : ZodObject) (data : JsObj)
    (h : (shape.map Prod.fst).Nodup) :
    ((ZodObject.output shape data).map Prod.fst).Nodup := by
  rw [ZodObject.output_eq]
  have hsub : List.Sublist
      ((shape.filterMap (fun f => (JsObj.find? data f.1).map (fun v => (f.1, v)))).map Prod.fst)
      (shape.map Prod.fst) := by
    induction shape with
    | nil => simp
    | cons f shape ih =>
      have ih2 := ih (List.nodup_cons.mp (by simpa using h)).2
      cases hf : JsObj.find? data f.1 with
      | none =>
        simp only [List.filterMap_cons, hf, Option.map_none', List.map_cons]
        exact List.Sublist.cons _ ih2
      | some v =>
        simp only [List.filterMap_cons, hf, Option.map_some', List.map_cons]
        exact List.Sublist.cons₂ _ ih2
  exact hsub.nodup h

theorem JsMap.get_after_set (m : JsMap) (k : Nat) (v : JsObj) :
    JsMap.get (JsMap.set m k v) k = some v := by
  induction m with
  | nil => simp [JsMap.set, JsMap.get]
  | cons e m ih =>
    obtain ⟨key, value⟩ := e
    by_cases hk : key = k <;> simp [JsMap.set, JsMap.get, hk, ih]

theorem create_stored (s : MemStorage) (request : JsObj) (now : Int) :
    JsMap.get (s.createConsultationRequest request now).1.consultationRequests
      s.currentConsultationId = some (s.createConsultationRequest request now).2 := by
  simp [MemStorage.createConsultationRequest, JsMap.get_after_set]

theorem create_get_other (s : MemStorage) (request : JsObj) (now : Int) (k : String)
    (hreq : (request.map Prod.fst).Nodup)
    (h1 : "id" ≠ k) (h2 : "message" ≠ k) (h3 : "createdAt" ≠ k) :
    JsObj.get (s.createConsultationRequest request now).2 k = JsObj.get request k := by
  simp only [MemStorage.createConsultationRequest]
  rw [JsObj.get_set_ne _ _ _ _ h3, JsObj.get_set_ne _ _ _ _ h2, JsObj.get_set_ne _ _ _ _ h1,
    JsObj.get_spread_nil _ hreq]

theorem create_message (s : MemStorage) (request : JsObj) (now : Int) :
    JsObj.get (s.createConsultationRequest request now).2 "message" =
      (JsObj.get request "message").or .null := by
  simp only [MemStorage.createConsultationRequest]
  rw [JsObj.get_set_ne _ _ _ _ (by decide), JsObj.get_set_self]

theorem create_createdAt (s : MemStorage) (request : JsObj) (now : Int) :
    JsObj.get (s.createConsultationRequest request now).2 "createdAt" = .date now := by
  simp only [MemStorage.createConsultationRequest]
  rw [JsObj.get_set_self]

/-- C3 (counterexample): the validated payload with `message: ""` is accepted unchanged, and
the record created from it has `message: null`, not the supplied string. -/
theorem empty_message_becomes_null :
    insertConsultationRequestSchema.parse (.obj payloadEmptyMessage) = .ok payloadEmptyMessage ∧
    JsObj.get payloadEmptyMessage "message" = .str "" ∧
    JsObj.get (MemStorage.new.createConsultationRequest payloadEmptyMessage 0).2 "message" =
      .null := by
  refine ⟨rfl, rfl, rfl⟩

/-- C3 (amended): for a validated payload P, the record returned by createConsultationRequest
is the one stored under its id, it carries the five required fields of P (strings)
unchanged, its message is P's message whenever that is a non-empty string, its message is
null exactly when P omits message or supplies null or the empty string, and its message is
never the empty string. -/
theorem consultation_record_fields (s : MemStorage) (body : JsVal) (P : JsObj) (now : Int)
    (hP : insertConsultationRequestSchema.parse body = .ok P) :
    JsMap.get (s.createConsultationRequest P now).1.consultationRequests
      s.currentConsultationId = some (s.createConsultationRequest P now).2 ∧
    (∀ k ∈ ["firstName", "lastName", "email", "company", "serviceInterest"],
      JsObj.get (s.createConsultationRequest P now).2 k = JsObj.get P k ∧
        ∃ t, JsObj.get P k = .str t) ∧
    (∀ m, JsObj.get P "message" = .str m → m ≠ "" →
      JsObj.get (s.createConsultationRequest P now).2 "message" = .str m) ∧
    (JsObj.get (s.createConsultationRequest P now).2 "message" = .null ↔
      JsObj.get P "message" = .undefined ∨ JsObj.get P "message" = .null ∨
        JsObj.get P "message" = .str "") ∧
    JsObj.get (s.createConsultationRequest P now).2 "message" ≠ .str "" := by
  obtain ⟨data, rfl, hi, rfl⟩ := (ZodObject.parse_eq_ok_iff _ _ _).mp hP
  rw [ZodObject.issues_eq_nil_iff, insertConsultationRequestSchema_eq] at hi
  have hnodup : ((ZodObject.output insertConsultationRequestSchema data).map Prod.fst).Nodup :=
    ZodObject.output_keys_nodup _ _ (by decide)
  have hmsg : JsObj.get (ZodObject.output insertConsultationRequestSchema data) "message" =
      JsObj.get data "message" := by
    rw [ZodObject.get_output, if_pos (by decide)]
  have hm := (issues_optional_nullable_string _ _).mp
    (hi ("message", .optional (.nullable (.string none))) (by simp))
  refine ⟨create_stored _ _ _, ?_, ?_, ?_, ?_⟩
  · intro k hk
    have hkey : k ∈ insertConsultationRequestSchema.map Prod.fst := by
      rw [insertConsultationRequestSchema_eq]
      simp only [List.mem_cons, List.mem_singleton, List.not_mem_nil, or_false] at hk
      rcases hk with rfl | rfl | rfl | rfl | rfl <;> decide
    have hstr : ∃ t, JsObj.get data k = .str t := by
      simp only [List.mem_cons, List.mem_singleton, List.not_mem_nil, or_false] at hk
      rcases hk with rfl | rfl | rfl | rfl | rfl
      · exact (issues_string_none _ _).mp (hi ("firstName", .string none) (by simp))
      · exact (issues_string_none _ _).mp (hi ("lastName", .string none) (by simp))
      · exact (issues_string_none _ _).mp (hi ("email", .string none) (by simp))
      · exact (issues_string_none _ _).mp (hi ("company", .string none) (by simp))
      · exact (issues_string_none _ _).mp (hi ("serviceInterest", .string none) (by simp))
    have hne : "id" ≠ k ∧ "message" ≠ k ∧ "createdAt" ≠ k := by
      simp only [List.mem_cons, List.mem_singleton, List.not_mem_nil, or_false] at hk
      rcases hk with rfl | rfl | rfl | rfl | rfl <;> decide
    refine ⟨create_get_other _ _ _ _ hnodup hne.1 hne.2.1 hne.2.2, ?_⟩
    rw [ZodObject.get_output, if_pos hkey]
    exact hstr
  · intro m hm1 hm2
    rw [create_message, hm1]
    simp [JsVal.or, JsVal.truthy, hm2]
  · rw [create_message, hmsg]
    rcases hm with h | h | ⟨t, h⟩
    · rw [h]; simp [JsVal.or, JsVal.truthy]
    · rw [h]; simp [JsVal.or, JsVal.truthy]
    · rw [h]
      by_cases ht : t = ""
      · simp [JsVal.or, JsVal.truthy, ht]
      · simp [JsVal.or, JsVal.truthy, ht]
  · rw [create_message, hmsg]
    rcases hm with h | h | ⟨t, h⟩
    · rw [h]; simp [JsVal.or, JsVal.truthy]
    · rw [h]; simp [JsVal.or, JsVal.truthy]
    · rw [h]
      by_cases ht : t = ""
      · simp [JsVal.or, JsVal.truthy, ht]
      · simp [JsVal.or, JsVal.truthy, ht]

/-- C3 (instance): the scenario payload of the spec, sent to a fresh store. -/
theorem consultation_record_fields_scenario :
    insertConsultationRequestSchema.parse (.obj payloadAB) = .ok payloadAB ∧
    JsObj.get (MemStorage.new.createConsultationRequest payloadAB 0).2 "message" = .null :=
  ⟨rfl,
    (consultation_record_fields MemStorage.new (.obj payloadAB) payloadAB 0 rfl).2.2.2.1.mpr
      (Or.inl rfl)⟩


theorem JsObj.keys_set (o : JsObj) (k : String) (v : JsVal) :
    (JsObj.set o k v).map Prod.fst =
      if k ∈ o.map Prod.fst then o.map Prod.fst else o.map Prod.fst ++ [k] := by
  induction o with
  | nil => simp [JsObj.set]
  | cons p o ih =>
    obtain ⟨name, value⟩ := p
    by_cases hn : name = k
    · subst hn; simp [JsObj.set]
    · have hn2 : ¬ k = name := fun h => hn h.symm
      simp only [JsObj.set, hn, if_false, List.map_cons, ih, List.mem_cons, hn2, false_or]
      split <;> simp

theorem JsObj.keys_set_nodup (o : JsObj) (k : String) (v : JsVal)
    (h : (o.map Prod.fst).Nodup) : ((JsObj.set o k v).map Prod.fst).Nodup := by
  rw [JsObj.keys_set]
  split
  · exact h
  · rename_i hk
    exact List.Nodup.append h (List.nodup_singleton k) (by simpa using hk)

theorem JsObj.keys_spread_nodup (src : JsObj) :
    ∀ target : JsObj, (target.map Prod.fst).Nodup →
      ((JsObj.spread target src).map Prod.fst).Nodup := by
  induction src with
  | nil => intro target h; exact h
  | cons p src ih =>
    intro target h
    exact ih (JsObj.set target p.1 p.2) (JsObj.keys_set_nodup _ _ _ h)

theorem JsObj.find?_of_mem (o : JsObj) (h : (o.map Prod.fst).Nodup) (k : String) (v : JsVal)
    (hm : (k, v) ∈ o) : JsObj.find? o k = some v := by
  induction o with
  | nil => cases hm
  | cons p o ih =>
    obtain ⟨name, value⟩ := p
    simp only [List.map_cons, List.nodup_cons] at h
    rcases List.mem_cons.mp hm with he | he
    · injection he with h1 h2; subst h1; subst h2; simp [JsObj.find?]
    · have hn : ¬ name = k := by
        intro e; subst e
        exact h.1 (List.mem_map.mpr ⟨(name, v), he, rfl⟩)
      simp [JsObj.find?, hn, ih h.2 he]

theorem create_keys_nodup (s : MemStorage) (request : JsObj) (now : Int) :
    ((s.createConsultationRequest request now).2.map Prod.fst).Nodup := by
  simp only [MemStorage.createConsultationRequest]
  exact JsObj.keys_set_nodup _ _ _ (JsObj.keys_set_nodup _ _ _ (JsObj.keys_set_nodup _ _ _
    (JsObj.keys_spread_nodup request [] List.nodup_nil)))

theorem JsObj.eq_get_of_mem (o : JsObj) (h : (o.map Prod.fst).Nodup) (k : String) (v : JsVal)
    (hm : (k, v) ∈ o) : v = JsObj.get o k := by
  simp [JsObj.get, JsObj.find?_of_mem o h k v hm]

/-- C10: for every request object, also one that carries id or createdAt, the record
created is the one stored under the counter value at the call, its id is that counter value
and its createdAt is the clock value read at the call; it has no other id or createdAt
property, so a value the request supplied for either does not appear in it. -/
theorem record_id_and_createdAt_server_assigned (s : MemStorage) (request : JsObj) (now : Int) :
    JsMap.get (s.createConsultationRequest request now).1.consultationRequests
      s.currentConsultationId = some (s.createConsultationRequest request now).2 ∧
    JsObj.get (s.createConsultationRequest request now).2 "id" =
      JsVal.ofNat s.currentConsultationId ∧
    JsObj.get (s.createConsultationRequest request now).2 "createdAt" = .date now ∧
    (∀ v, ("id", v) ∈ (s.createConsultationRequest request now).2 →
      v = JsVal.ofNat s.currentConsultationId) ∧
    (∀ v, ("createdAt", v) ∈ (s.createConsultationRequest request now).2 → v = .date now) := by
  refine ⟨create_stored s request now, create_id s request now, create_createdAt s request now,
    ?_, ?_⟩
  · intro v hv
    rw [JsObj.eq_get_of_mem _ (create_keys_nodup s request now) "id" v hv, create_id]
  · intro v hv
    rw [JsObj.eq_get_of_mem _ (create_keys_nodup s request now) "createdAt" v hv,
      create_createdAt]

/-- C10 (instance): a request that supplies its own id and createdAt, sent to a fresh store. -/
theorem client_supplied_id_overwritten :
    JsObj.get (MemStorage.new.createConsultationRequest
        (payloadAB ++ [("id", JsVal.ofNat 99), ("createdAt", .str "2001-01-01")]) 7).2 "id" =
      JsVal.ofNat 1 ∧
    JsObj.get (MemStorage.new.createConsultationRequest
        (payloadAB ++ [("id", JsVal.ofNat 99), ("createdAt", .str "2001-01-01")]) 7).2
        "createdAt" = .date 7 :=
  ⟨rfl, rfl⟩

theorem JsObj.get_of_not_has (data : JsObj) (k : String) (h : JsObj.has data k = false) :
    JsObj.get data k = .undefined := by
  unfold JsObj.has at h
  unfold JsObj.get
  cases hf : JsObj.find? data k with
  | none => rfl
  | some v => rw [hf] at h; cases h

theorem assessmentSchema_eq_nil_iff (data : JsObj) :
    ZodObject.issues assessmentSchema data = [] ↔
      (∀ k ∈ ["currentRole", "experience", "industry", "careerGoals", "timeframe", "location",
          "workStyle"], ∃ s, JsObj.get data k = .str s ∧ s ≠ "") ∧
      (∀ k ∈ ["skills", "interests"], ∃ items, JsObj.get data k = .arr items ∧ items ≠ [] ∧
          ∀ x ∈ items, ∃ s, x = .str s) := by
  rw [ZodObject.issues_eq_nil_iff]
  simp only [assessmentSchema, List.forall_mem_cons, List.not_mem_nil, issues_string_min_one,
    issues_array_string_min_one]
  tauto

theorem JsVal.asStrings_faithful (items : List JsVal) (h : ∀ x ∈ items, ∃ s, x = .str s) :
    (JsVal.asStrings (.arr items)).map JsVal.str = items := by
  induction items with
  | nil => rfl
  | cons x xs ih =>
    obtain ⟨t, rfl⟩ := h x (List.mem_cons_self _ _)
    have ih2 := ih (fun y hy => h y (List.mem_cons_of_mem _ hy))
    simp only [JsVal.asStrings, List.map_cons, JsVal.asString, List.map_map] at ih2 ⊢
    rw [ih2]

/-- The typed view loses nothing: on an accepted payload each string field of the typed
assessment is the validated property, and each list is the validated array. -/
theorem ofValidated_faithful (body : JsVal) (P : JsObj)
    (hP : assessmentSchema.parse body = .ok P) :
    JsObj.get P "currentRole" = .str (AssessmentData.ofValidated P).currentRole ∧
    JsObj.get P "experience" = .str (AssessmentData.ofValidated P).experience ∧
    JsObj.get P "industry" = .str (AssessmentData.ofValidated P).industry ∧
    JsObj.get P "skills" = .arr ((AssessmentData.ofValidated P).skills.map JsVal.str) ∧
    JsObj.get P "interests" = .arr ((AssessmentData.ofValidated P).interests.map JsVal.str) ∧
    JsObj.get P "careerGoals" = .str (AssessmentData.ofValidated P).careerGoals ∧
    JsObj.get P "timeframe" = .str (AssessmentData.ofValidated P).timeframe ∧
    JsObj.get P "location" = .str (AssessmentData.ofValidated P).location ∧
    JsObj.get P "workStyle" = .str (AssessmentData.ofValidated P).workStyle := by
  obtain ⟨data, rfl, hi, rfl⟩ := (ZodObject.parse_eq_ok_iff _ _ _).mp hP
  obtain ⟨hs, ha⟩ := (assessmentSchema_eq_nil_iff data).mp hi
  have hstr : ∀ k ∈ ["currentRole", "experience", "industry", "careerGoals", "timeframe",
      "location", "workStyle"],
      JsObj.get (ZodObject.output assessmentSchema data) k =
        .str (JsObj.get (ZodObject.output assessmentSchema data) k).asString := by
    intro k hk
    obtain ⟨t, ht, -⟩ := hs k hk
    have hkey : k ∈ assessmentSchema.map Prod.fst := by
      simp only [List.mem_cons, List.mem_singleton, List.not_mem_nil, or_false] at hk
      rcases hk with rfl | rfl | rfl | rfl | rfl | rfl | rfl <;> decide
    rw [ZodObject.get_output, if_pos hkey, ht]
    rfl
  have harr : ∀ k ∈ ["skills", "interests"],
      JsObj.get (ZodObject.output assessmentSchema data) k =
        .arr ((JsObj.get (ZodObject.output assessmentSchema data) k).asStrings.map
          JsVal.str) := by
    intro k hk
    obtain ⟨items, ht, -, hall⟩ := ha k hk
    have hkey : k ∈ assessmentSchema.map Prod.fst := by
      simp only [List.mem_cons, List.mem_singleton, List.not_mem_nil, or_false] at hk
      rcases hk with rfl | rfl <;> decide
    rw [ZodObject.get_output, if_pos hkey, ht, JsVal.asStrings_faithful items hall]
  exact ⟨hstr _ (by simp), hstr _ (by simp), hstr _ (by simp), harr _ (by simp),
    harr _ (by simp), hstr _ (by simp), hstr _ (by simp), hstr _ (by simp), hstr _ (by simp)⟩

/-- C4: a body that lacks one of the five required consultation fields (a body that is not
an object lacks them all) is answered with status 400 and message "Validation error", and the
store, its records and its counters, is left as it was. -/
theorem consultation_missing_field_rejected (storage : MemStorage) (body : JsVal) (now : Int)
    (h : ∃ k ∈ ["firstName", "lastName", "email", "company", "serviceInterest"],
      ∀ data, body = .obj data → JsObj.has data k = false) :
    (postConsultation storage body now).1 = storage ∧
    (postConsultation storage body now).2.status = 400 ∧
    (postConsultation storage body now).2.message = .str "Validation error" := by
  have hz : ∃ issues, insertConsultationRequestSchema.parse body = .error (.zodError issues) := by
    cases body with
    | obj data =>
      cases hi : ZodObject.issues insertConsultationRequestSchema data with
      | cons i more => exact ⟨i :: more, by simp [ZodObject.parse, hi]⟩
      | nil =>
        exfalso
        rw [ZodObject.issues_eq_nil_iff, insertConsultationRequestSchema_eq] at hi
        obtain ⟨k, hk, hlack⟩ := h
        have hund := JsObj.get_of_not_has data k (hlack data rfl)
        have hstr : ∃ t, JsObj.get data k = .str t := by
          simp only [List.mem_cons, List.mem_singleton, List.not_mem_nil, or_false] at hk
          rcases hk with rfl | rfl | rfl | rfl | rfl
          · exact (issues_string_none _ _).mp (hi ("firstName", .string none) (by simp))
          · exact (issues_string_none _ _).mp (hi ("lastName", .string none) (by simp))
          · exact (issues_string_none _ _).mp (hi ("email", .string none) (by simp))
          · exact (issues_string_none _ _).mp (hi ("company", .string none) (by simp))
          · exact (issues_string_none _ _).mp (hi ("serviceInterest", .string none) (by simp))
        obtain ⟨t, ht⟩ := hstr
        rw [hund] at ht
        cases ht
    | _ => exact ⟨_, rfl⟩
  obtain ⟨issues, hp⟩ := hz
  simp [postConsultation, hp, Response.statusJson, Response.message, JsObj.get, JsObj.find?]

/-- C4 (instance): the scenario payload without its email, sent to a store that already
holds one record. -/
theorem consultation_missing_field_rejected_scenario :
    (postConsultation (MemStorage.new.createConsultationRequest payloadAB 0).1
        (.obj payloadNoEmail) 5).1 = (MemStorage.new.createConsultationRequest payloadAB 0).1 ∧
    (postConsultation (MemStorage.new.createConsultationRequest payloadAB 0).1
        (.obj payloadNoEmail) 5).2.status = 400 ∧
    (postConsultation (MemStorage.new.createConsultationRequest payloadAB 0).1
        (.obj payloadNoEmail) 5).2.message = .str "Validation error" :=
  consultation_missing_field_rejected _ (.obj payloadNoEmail) 5
    ⟨"email", by decide, fun data hd => by injection hd with hd; subst hd; rfl⟩

/-- C8: an assessment payload whose skills or whose interests is the empty array, whatever
its other fields hold, is answered with status 400 and message "Validation error", and
generateCareerRecommendations is not called. -/
theorem empty_skills_or_interests_rejected
    (openai : ChatRequest → Except Raised ChatCompletion)
    (jsonParse : String → Except Raised JsVal) (data : JsObj)
    (h : JsObj.get data "skills" = .arr [] ∨ JsObj.get data "interests" = .arr []) :
    (postCareerRecommendations openai jsonParse (.obj data)).response.status = 400 ∧
    (postCareerRecommendations openai jsonParse (.obj data)).response.message =
      .str "Validation error" ∧
    (postCareerRecommendations openai jsonParse (.obj data)).generatorCalls = [] := by
  cases hi : ZodObject.issues assessmentSchema data with
  | cons i more =>
    simp [postCareerRecommendations, ZodObject.parse, hi, Response.statusJson, Response.message,
      JsObj.get, JsObj.find?]
  | nil =>
    exfalso
    obtain ⟨-, harr⟩ := (assessmentSchema_eq_nil_iff data).mp hi
    rcases h with h | h
    · obtain ⟨items, h1, h2, -⟩ := harr "skills" (by simp)
      rw [h] at h1; injection h1 with h1; exact h2 h1.symm
    · obtain ⟨items, h1, h2, -⟩ := harr "interests" (by simp)
      rw [h] at h1; injection h1 with h1; exact h2 h1.symm

/-- C8 (instance): the sample assessment with `skills: []`. -/
theorem empty_skills_rejected_scenario :
    (postCareerRecommendations (fun _ => .ok { choices := [] }) (fun _ => .ok .null)
        (.obj (JsObj.set assessmentSample "skills" (.arr [])))).response.status = 400 ∧
    (postCareerRecommendations (fun _ => .ok { choices := [] }) (fun _ => .ok .null)
        (.obj (JsObj.set assessmentSample "skills" (.arr [])))).response.message =
      .str "Validation error" ∧
    (postCareerRecommendations (fun _ => .ok { choices := [] }) (fun _ => .ok .null)
        (.obj (JsObj.set assessmentSample "skills" (.arr [])))).generatorCalls = [] :=
  empty_skills_or_interests_rejected _ _ (JsObj.set assessmentSample "skills" (.arr []))
    (Or.inl rfl)

/-- C9 (counterexample): the sample assessment with `skills: [""]` is accepted. -/
theorem empty_string_skill_accepted :
    assessmentSchema.parse (.obj (JsObj.set assessmentSample "skills" (.arr [.str ""]))) =
      .ok (JsObj.set assessmentSample "skills" (.arr [.str ""])) := by
  rfl

/-- C9 (amended): assessmentSchema accepts a payload exactly when it is an object whose
skills and interests are non-empty arrays of strings, of any strings, the empty string
included, and whose other seven fields are non-empty strings. -/
theorem assessmentSchema_accepts_iff (body : JsVal) :
    (∃ P, assessmentSchema.parse body = .ok P) ↔
      ∃ data, body = .obj data ∧
        (∀ k ∈ ["currentRole", "experience", "industry", "careerGoals", "timeframe", "location",
            "workStyle"], ∃ s, JsObj.get data k = .str s ∧ s ≠ "") ∧
        (∀ k ∈ ["skills", "interests"], ∃ items, JsObj.get data k = .arr items ∧ items ≠ [] ∧
            ∀ x ∈ items, ∃ s, x = .str s) := by
  constructor
  · rintro ⟨P, hP⟩
    obtain ⟨data, hb, hi, -⟩ := (ZodObject.parse_eq_ok_iff _ _ _).mp hP
    exact ⟨data, hb, (assessmentSchema_eq_nil_iff data).mp hi⟩
  · rintro ⟨data, hb, h⟩
    exact ⟨_, (ZodObject.parse_eq_ok_iff _ _ _).mpr
      ⟨data, hb, (assessmentSchema_eq_nil_iff data).mpr h, rfl⟩⟩

/-! ## The recommendation generator -/

theorem includesChars_iff (s needle : List Char) :
    includesChars s needle = true ↔ ∃ a b, s = a ++ needle ++ b := by
  induction s with
  | nil =>
    simp only [includesChars, List.isEmpty_iff]
    constructor
    · rintro rfl; exact ⟨[], [], rfl⟩
    · rintro ⟨a, b, h⟩
      have h1 := congrArg List.length h
      simp only [List.length_nil, List.length_append] at h1
      exact List.eq_nil_of_length_eq_zero (by omega)
  | cons c cs ih =>
    simp only [includesChars, Bool.or_eq_true, ih, List.isPrefixOf_iff_prefix]
    constructor
    · rintro (⟨b, hb⟩ | ⟨a, b, h⟩)
      · exact ⟨[], b, by simpa using hb.symm⟩
      · exact ⟨c :: a, b, by simp [h]⟩
    · rintro ⟨a, b, h⟩
      cases a with
      | nil => exact Or.inl ⟨b, by simpa using h.symm⟩
      | cons x a =>
        simp only [List.cons_append, List.cons.injEq] at h
        exact Or.inr ⟨a, b, h.2⟩

theorem includes_iff (s needle : String) :
    includes s needle = true ↔ ∃ a b : List Char, s.data = a ++ needle.data ++ b :=
  includesChars_iff s.data needle.data

theorem generate_of_body_error (openai : ChatRequest → Except Raised ChatCompletion)
    (jsonParse : String → Except Raised JsVal) (a : AssessmentData) (e : Raised)
    (h : generateBody openai jsonParse a = .error e) :
    generateCareerRecommendations openai jsonParse a =
      .error (.error (if isQuotaFailure e = true then quotaMessage else genericMessage)) := by
  simp only [generateCareerRecommendations, h, generateCatch]
  split <;> rfl

theorem isQuotaFailure_iff (e : Raised) :
    isQuotaFailure e = true ↔
      ∃ m, e = .error m ∧ (includes m "quota" = true ∨ includes m "429" = true) := by
  cases e with
  | error m => simp [isQuotaFailure]
  | value v => simp [isQuotaFailure]

theorem quotaMessage_ne_genericMessage : quotaMessage ≠ genericMessage := by decide

/-- C5 (counterexample): the provider completes with the content `not json`, on which
`JSON.parse` throws; the generator fails with the generic error and returns nothing. -/
theorem unparseable_content_not_empty_result :
    jsonParseSample "not json" =
      .error (.error "Unexpected token 'o', \"not json\" is not valid JSON") ∧
    generateCareerRecommendations (providerReturning (some "not json")) jsonParseSample
      (AssessmentData.ofValidated assessmentSample) = .error (.error genericMessage) := by
  exact ⟨rfl, rfl⟩

/-- C5 (amended): when the content of the completion's first choice is non-empty text on
which `JSON.parse` throws, generateCareerRecommendations fails instead of returning: with the
quota error when the thrown value is an Error whose message includes "quota" or "429", with
the generic error otherwise. -/
theorem unparseable_content_fails (openai : ChatRequest → Except Raised ChatCompletion)
    (jsonParse : String → Except Raised JsVal) (a : AssessmentData)
    (response : ChatCompletion) (text : String) (rest : List (Option String)) (e : Raised)
    (hcall : openai (chatRequest a) = .ok response)
    (hchoice : response.choices = some text :: rest)
    (htext : text ≠ "")
    (hparse : jsonParse text = .error e) :
    generateCareerRecommendations openai jsonParse a =
      .error (.error (if isQuotaFailure e = true then quotaMessage else genericMessage)) := by
  apply generate_of_body_error
  simp [generateBody, hcall, hchoice, contentOrDefault, htext, hparse]

/-- C5 (instance): the content `not json`. -/
theorem unparseable_content_fails_scenario :
    generateCareerRecommendations (providerReturning (some "not json")) jsonParseSample
      (AssessmentData.ofValidated assessmentSample) =
      .error (.error
        (if isQuotaFailure (.error "Unexpected token 'o', \"not json\" is not valid JSON") = true
          then quotaMessage else genericMessage)) :=
  unparseable_content_fails (providerReturning (some "not json")) jsonParseSample
    (AssessmentData.ofValidated assessmentSample) { choices := [some "not json"] } "not json" []
    (.error "Unexpected token 'o', \"not json\" is not valid JSON") rfl rfl (by decide) rfl

/-- C6: whatever value the try block of generateCareerRecommendations throws, the function
fails with one of its own two errors: the quota error exactly when the caught value is an
Error whose message includes "quota" or "429", the generic error exactly otherwise; what it
throws is fixed by that test alone, so the caught error is not passed on. -/
theorem generation_failure_mapping (openai : ChatRequest → Except Raised ChatCompletion)
    (jsonParse : String → Except Raised JsVal) (a : AssessmentData) (e : Raised)
    (h : generateBody openai jsonParse a = .error e) :
    (generateCareerRecommendations openai jsonParse a = .error (.error quotaMessage) ∨
      generateCareerRecommendations openai jsonParse a = .error (.error genericMessage)) ∧
    (generateCareerRecommendations openai jsonParse a = .error (.error quotaMessage) ↔
      ∃ m, e = .error m ∧ (includes m "quota" = true ∨ includes m "429" = true)) ∧
    (generateCareerRecommendations openai jsonParse a = .error (.error genericMessage) ↔
      ¬ ∃ m, e = .error m ∧ (includes m "quota" = true ∨ includes m "429" = true)) := by
  rw [generate_of_body_error openai jsonParse a e h, ← isQuotaFailure_iff]
  by_cases hq : isQuotaFailure e = true
  · simp [hq, quotaMessage_ne_genericMessage]
  · simp [hq, quotaMessage_ne_genericMessage.symm]

/-- C6 (instance): the provider rejects with a rate-limit error. -/
theorem generation_failure_mapping_scenario :
    generateCareerRecommendations (providerFailing "429 You exceeded your current quota")
      jsonParseSample (AssessmentData.ofValidated assessmentSample) =
      .error (.error quotaMessage) :=
  (generation_failure_mapping (providerFailing "429 You exceeded your current quota")
    jsonParseSample (AssessmentData.ofValidated assessmentSample)
    (.error "429 You exceeded your current quota") rfl).2.1.mpr
    ⟨"429 You exceeded your current quota", rfl, Or.inr (by decide)⟩

theorem generate_error_is_error (openai : ChatRequest → Except Raised ChatCompletion)
    (jsonParse : String → Except Raised JsVal) (a : AssessmentData) (t : Thrown)
    (h : generateCareerRecommendations openai jsonParse a = .error t) :
    ∃ m, t = .error m := by
  unfold generateCareerRecommendations at h
  cases hb : generateBody openai jsonParse a with
  | ok v => rw [hb] at h; cases h
  | error e =>
    rw [hb] at h
    injection h with h
    rw [← h]
    unfold generateCatch
    split
    · exact ⟨_, rfl⟩
    · exact ⟨_, rfl⟩

theorem career_response_of_failure (openai : ChatRequest → Except Raised ChatCompletion)
    (jsonParse : String → Except Raised JsVal) (body : JsVal) (P : JsObj) (t : Thrown)
    (hP : assessmentSchema.parse body = .ok P)
    (h : generateCareerRecommendations openai jsonParse (AssessmentData.ofValidated P) =
      .error t) :
    (postCareerRecommendations openai jsonParse body).response =
      Response.statusJson 500
        (.obj [("message", .str "Failed to generate recommendations. Please try again.")]) := by
  obtain ⟨m, rfl⟩ := generate_error_is_error openai jsonParse _ t h
  simp [postCareerRecommendations, hP, h]

/-- C7: for a valid assessment payload and any two failing generations, whatever their
kind or the provider's message, the career handler answers both with status 500 and the body
`{message: "Failed to generate recommendations. Please try again."}`. -/
theorem generation_failure_response_uniform
    (openai₁ openai₂ : ChatRequest → Except Raised ChatCompletion)
    (jsonParse₁ jsonParse₂ : String → Except Raised JsVal) (body : JsVal) (P : JsObj)
    (t₁ t₂ : Thrown)
    (hP : assessmentSchema.parse body = .ok P)
    (h₁ : generateCareerRecommendations openai₁ jsonParse₁ (AssessmentData.ofValidated P) =
      .error t₁)
    (h₂ : generateCareerRecommendations openai₂ jsonParse₂ (AssessmentData.ofValidated P) =
      .error t₂) :
    (postCareerRecommendations openai₁ jsonParse₁ body).response =
      { status := 500
        body := .obj [("message", .str "Failed to generate recommendations. Please try again.")] } ∧
    (postCareerRecommendations openai₂ jsonParse₂ body).response =
      (postCareerRecommendations openai₁ jsonParse₁ body).response := by
  rw [career_response_of_failure openai₁ jsonParse₁ body P t₁ hP h₁,
    career_response_of_failure openai₂ jsonParse₂ body P t₂ hP h₂]
  exact ⟨rfl, rfl⟩

/-- C7 (instance): a quota failure and an unparseable completion, on the sample assessment. -/
theorem generation_failure_response_uniform_scenario :
    (postCareerRecommendations (providerFailing "429 You exceeded your current quota")
        jsonParseSample (.obj assessmentSample)).response =
      { status := 500
        body := .obj [("message", .str "Failed to generate recommendations. Please try again.")] } ∧
    (postCareerRecommendations (providerReturning (some "not json")) jsonParseSample
        (.obj assessmentSample)).response =
      (postCareerRecommendations (providerFailing "429 You exceeded your current quota")
        jsonParseSample (.obj assessmentSample)).response :=
  generation_failure_response_uniform (providerFailing "429 You exceeded your current quota")
    (providerReturning (some "not json")) jsonParseSample jsonParseSample (.obj assessmentSample)
    assessmentSample (.error quotaMessage) (.error genericMessage) rfl rfl rfl

end TalentKnit
